import Mathlib

/-!
Shallow embedding of `src/user-management_2/app/utils.py`, an in-memory
user-directory utility: five field validators and four directory operations
(`get_user_info`, `list_all_users`, `add_user`, `update_user`).

Modelling conventions:
* Python dicts are association lists with string keys; lookup takes the first
  matching entry (Python dicts cannot hold duplicate keys, so theorems that
  need it carry a no-duplicate-keys hypothesis).
* Python values occurring in records are strings or ints (`Value`).
* Raising is modelled with `Except`: `ValueError`/`PermissionError` carry the
  message the source raises with; `typeError`/`attrError` stand for the
  `TypeError`/`AttributeError` Python would raise when a validator receives a
  value of the wrong runtime type (e.g. `re.match` on an int, `.lower()` on an
  int).
* The configuration module `constants.py` ships outside the utility layer, so
  the reference data (`EXCLUDED_NUMBERS`, `VALID_GENDERS`,
  `VALID_BLOOD_GROUPS`) is a `Config` parameter; `VALID_COUNTRY_LIST` is
  imported but never used by the code, so it is omitted.
* The shared store `data['records']` is passed as an explicit `Directory`
  argument; mutating operations return the post-state.  In the source every
  raise in `add_user`/`update_user` happens before its single write to
  `data['records']`, so a raising call leaves the directory unchanged; the
  `*_state` projections below make that post-state explicit.
* `re.match(r'^...$', s)` matches the whole string, or the whole string minus
  a single trailing newline (Python `$` also matches just before a final
  `'\n'`); `reFullMatch` embeds exactly that.  The character class `\d` and
  Python's `str.lower`/`str.upper` are modelled by their ASCII behaviour
  (`Char.isDigit`, `Char.toLower`, `Char.toUpper`), which agrees with Python
  on every ASCII string.
-/

/-- A Python value stored in a user record: a string or an int. -/
inductive Value : Type
  | vStr (s : String)
  | vInt (n : Int)
deriving DecidableEq

/-- A user record: a Python dict from field names to values. -/
abbrev Record := List (String × Value)

/-- The directory `data['records']`: a Python dict from usernames to records. -/
abbrev Directory := List (String × Record)

/-- The exceptions the utility layer can raise. -/
inductive PyErr : Type
  | valueError (msg : String)
  | permissionError (msg : String)
  | typeError
  | attrError
deriving DecidableEq

/-- Reference data read from `constants.py` (external to the core). -/
structure Config : Type where
  EXCLUDED_NUMBERS : List String
  VALID_GENDERS : List String
  VALID_BLOOD_GROUPS : List String

/-- Python dict lookup (`d.get(k)` / `d[k]`): first entry with the given key. -/
def lookupKV {α : Type} : List (String × α) → String → Option α
  | [], _ => none
  | kv :: rest, k => if kv.1 = k then some kv.2 else lookupKV rest k

/-- Python `k in d` membership test on a dict. -/
def containsKey {α : Type} (l : List (String × α)) (k : String) : Bool :=
  l.any (fun kv => kv.1 = k)

/-- `True`/`False` of a validator call that returned instead of raising. -/
def exOk {α : Type} : Except PyErr α → Bool
  | .ok _ => true
  | .error _ => false

/-- Characters allowed before the `@` by the email regex: `[a-zA-Z0-9_.+-]`. -/
def emailLocalChar (c : Char) : Bool :=
  c.isAlpha || c.isDigit || c = '_' || c = '.' || c = '+' || c = '-'

/-- Characters allowed in the host segment: `[a-zA-Z0-9-]`. -/
def emailHostChar (c : Char) : Bool :=
  c.isAlpha || c.isDigit || c = '-'

/-- Characters allowed after the host's dot: `[a-zA-Z0-9-.]`. -/
def emailSuffixChar (c : Char) : Bool :=
  c.isAlpha || c.isDigit || c = '-' || c = '.'

/-- Split a character list at the first occurrence of `sep`, if any. -/
def splitFirst (sep : Char) : List Char → Option (List Char × List Char)
  | [] => none
  | c :: cs =>
    if c = sep then some ([], cs)
    else (splitFirst sep cs).map (fun p => (c :: p.1, p.2))

/-- Membership in the language of `[a-zA-Z0-9_.+-]+@[a-zA-Z0-9-]+\.[a-zA-Z0-9-.]+`.
No character class contains `@`, so a matching string has exactly one `@`, at
the split; the host class contains no `.`, so the literal `\.` can only match
the first dot after the `@`. -/
def emailCore (l : List Char) : Bool :=
  match splitFirst '@' l with
  | none => false
  | some (loc, rest) =>
    !loc.isEmpty && loc.all emailLocalChar &&
    (match splitFirst '.' rest with
     | none => false
     | some (host, suffix) =>
       !host.isEmpty && host.all emailHostChar &&
       !suffix.isEmpty && suffix.all emailSuffixChar)

/-- Membership in the language of `\d{10}`. -/
def mobileCore (l : List Char) : Bool :=
  l.length = 10 && l.all Char.isDigit

/-- Python `re.match(r'^core$', s)`: the whole string is in the core language,
or everything before a single trailing newline is (Python `$` also matches
just before a final `'\n'`). -/
def reFullMatch (core : List Char → Bool) (s : String) : Bool :=
  core s.data || (s.data.getLast? = some '\n' && core s.data.dropLast)

/-- Python `str.lower` (ASCII behaviour). -/
def pyLower (s : String) : String :=
  ⟨s.data.map Char.toLower⟩

/-- Python `str.upper` (ASCII behaviour). -/
def pyUpper (s : String) : String :=
  ⟨s.data.map Char.toUpper⟩

/-- `validate_email` from `utils.py`: raises `ValueError("Invalid email format")`
unless the email matches the anchored regex; returns `True` otherwise. -/
def validate_email (email : String) : Except PyErr Bool :=
  if !reFullMatch emailCore email then .error (.valueError "Invalid email format")
  else .ok true

/-- `validate_age` from `utils.py`: raises `ValueError("Invalid age")` unless
`0 <= age <= 120`; returns `True` otherwise. -/
def validate_age (age : Int) : Except PyErr Bool :=
  if !(decide (0 ≤ age) && decide (age ≤ 120)) then .error (.valueError "Invalid age")
  else .ok true

/-- `validate_mobile` from `utils.py`: raises `ValueError("Invalid mobile number")`
unless the number matches `^\d{10}$`; then returns `False` for numbers in
`EXCLUDED_NUMBERS` and `True` otherwise. -/
def validate_mobile (cfg : Config) (mobile : String) : Except PyErr Bool :=
  if !reFullMatch mobileCore mobile then .error (.valueError "Invalid mobile number")
  else if cfg.EXCLUDED_NUMBERS.contains mobile then .ok false
  else .ok true

/-- `validate_gender` from `utils.py`: raises `ValueError("Invalid gender")`
unless `gender.lower()` is in `VALID_GENDERS`; returns `True` otherwise. -/
def validate_gender (cfg : Config) (gender : String) : Except PyErr Bool :=
  if !cfg.VALID_GENDERS.contains (pyLower gender) then .error (.valueError "Invalid gender")
  else .ok true

/-- `validate_blood_group` from `utils.py`: raises `ValueError("Invalid blood group")`
unless `blood_group.upper()` is in `VALID_BLOOD_GROUPS`; returns `True` otherwise. -/
def validate_blood_group (cfg : Config) (blood_group : String) : Except PyErr Bool :=
  if !cfg.VALID_BLOOD_GROUPS.contains (pyUpper blood_group) then .error (.valueError "Invalid blood group")
  else .ok true

/-- Apply a validator to a record value, as the directory code does: a string
goes to the underlying validator; an int makes `re.match` raise `TypeError`. -/
def validate_email_v : Value → Except PyErr Bool
  | .vStr s => validate_email s
  | .vInt _ => .error .typeError

/-- `validate_age` on a record value: a non-int makes `0 <= age <= 120`
raise `TypeError`. -/
def validate_age_v : Value → Except PyErr Bool
  | .vInt n => validate_age n
  | .vStr _ => .error .typeError

/-- `validate_mobile` on a record value. -/
def validate_mobile_v (cfg : Config) : Value → Except PyErr Bool
  | .vStr s => validate_mobile cfg s
  | .vInt _ => .error .typeError

/-- `validate_gender` on a record value: `.lower()` on an int raises
`AttributeError`. -/
def validate_gender_v (cfg : Config) : Value → Except PyErr Bool
  | .vStr s => validate_gender cfg s
  | .vInt _ => .error .attrError

/-- `validate_blood_group` on a record value. -/
def validate_blood_group_v (cfg : Config) : Value → Except PyErr Bool
  | .vStr s => validate_blood_group cfg s
  | .vInt _ => .error .attrError

/-- `if k in updates: validator(updates[k])` — run a validator on a field only
when the field is present. -/
def validateField (f : Value → Except PyErr Bool) (o : Option Value) : Except PyErr Unit :=
  match o with
  | some v => match f v with
    | .ok _ => .ok ()
    | .error e => .error e
  | none => .ok ()

/-- `get_user_info(username, current_user, is_admin)` from `utils.py`.
`if user_info:` is Python truthiness: an absent user and a present-but-empty
record both take the `User not found` branch. -/
def get_user_info (username current_user : String) (is_admin : Bool)
    (db : Directory) : Except PyErr Record :=
  match lookupKV db username with
  | some user_info =>
    if !user_info.isEmpty then
      if username = current_user || is_admin then .ok user_info
      else .error (.permissionError "Unauthorized access")
    else .error (.valueError "User not found")
  | none => .error (.valueError "User not found")

/-- `list_all_users(current_user, is_admin)` from `utils.py`. -/
def list_all_users (current_user : String) (is_admin : Bool)
    (db : Directory) : Except PyErr Directory :=
  if is_admin then .ok db
  else .error (.permissionError "Unauthorized access")

/-- The record `add_user` inserts on success, with its six fields. -/
def mkRecord (email : String) (age : Int)
    (mobile gender blood_group role : String) : Record :=
  [("email", .vStr email), ("age", .vInt age), ("mobile", .vStr mobile),
   ("gender", .vStr gender), ("blood_group", .vStr blood_group),
   ("role", .vStr role)]

/-- The validator sequence of `add_user`, in source order, failing fast. -/
def runAddValidations (cfg : Config) (email : String) (age : Int)
    (mobile gender blood_group : String) : Except PyErr Unit :=
  match validate_email email with
  | .error e => .error e
  | .ok _ =>
    match validate_age age with
    | .error e => .error e
    | .ok _ =>
      match validate_mobile cfg mobile with
      | .error e => .error e
      | .ok _ =>
        match validate_gender cfg gender with
        | .error e => .error e
        | .ok _ =>
          match validate_blood_group cfg blood_group with
          | .error e => .error e
          | .ok _ => .ok ()

/-- `add_user(...)` from `utils.py`.  On success the new record is appended
(Python dict insertion adds a fresh key at the end) and the whole updated
directory is returned; every raise happens before the single write. -/
def add_user (cfg : Config) (username email : String) (age : Int)
    (mobile gender blood_group role : String)
    (current_user : String) (is_admin : Bool)
    (db : Directory) : Except PyErr Directory :=
  if is_admin then
    match runAddValidations cfg email age mobile gender blood_group with
    | .error e => .error e
    | .ok _ =>
      if containsKey db username then .error (.valueError "User already exists")
      else .ok (db ++ [(username, mkRecord email age mobile gender blood_group role)])
  else .error (.permissionError "Unauthorized access")

/-- Python `old.update(upd)`: keys already in `old` keep their position and
take their value from `upd`; keys only in `upd` are appended in order. -/
def dictUpdate (old upd : Record) : Record :=
  (old.map fun kv => (kv.1, (lookupKV upd kv.1).getD kv.2)) ++
  upd.filter (fun kv => (lookupKV old kv.1).isNone)

/-- Replace the record stored under `u` (in-place mutation of the dict value
`data['records'][username]`). -/
def dirSet (db : Directory) (u : String) (r : Record) : Directory :=
  db.map fun kv => if kv.1 = u then (kv.1, r) else kv

/-- The validator sequence of `update_user`, in source order, each field only
when present in `updates`, failing fast. -/
def runUpdateValidations (cfg : Config) (updates : Record) : Except PyErr Unit :=
  match validateField validate_email_v (lookupKV updates "email") with
  | .error e => .error e
  | .ok _ =>
    match validateField validate_age_v (lookupKV updates "age") with
    | .error e => .error e
    | .ok _ =>
      match validateField (validate_mobile_v cfg) (lookupKV updates "mobile") with
      | .error e => .error e
      | .ok _ =>
        match validateField (validate_gender_v cfg) (lookupKV updates "gender") with
        | .error e => .error e
        | .ok _ =>
          match validateField (validate_blood_group_v cfg) (lookupKV updates "blood_group") with
          | .error e => .error e
          | .ok _ => .ok ()

/-- `update_user(username, updates, current_user, is_admin)` from `utils.py`.
Existence (with Python truthiness) is checked before authorization; on success
`data['records'][username].update(updates)` merges the updates and the updated
record is returned, paired here with the post-state directory. -/
def update_user (cfg : Config) (username : String) (updates : Record)
    (current_user : String) (is_admin : Bool)
    (db : Directory) : Except PyErr (Record × Directory) :=
  match lookupKV db username with
  | none => .error (.valueError "User not found")
  | some user_info =>
    if user_info.isEmpty then .error (.valueError "User not found")
    else if current_user ≠ username && !is_admin then
      .error (.permissionError "Unauthorized access")
    else
      match runUpdateValidations cfg updates with
      | .error e => .error e
      | .ok _ =>
        .ok (dictUpdate user_info updates, dirSet db username (dictUpdate user_info updates))

/-- Directory after an `add_user` call: in the source the only write to
`data['records']` is the insert on the success path, so a raising call leaves
the directory as it was. -/
def add_user_state (cfg : Config) (username email : String) (age : Int)
    (mobile gender blood_group role : String)
    (current_user : String) (is_admin : Bool) (db : Directory) : Directory :=
  match add_user cfg username email age mobile gender blood_group role current_user is_admin db with
  | .ok d => d
  | .error _ => db

/-- Directory after an `update_user` call: the only write is the merge on the
success path. -/
def update_user_state (cfg : Config) (username : String) (updates : Record)
    (current_user : String) (is_admin : Bool) (db : Directory) : Directory :=
  match update_user cfg username updates current_user is_admin db with
  | .ok rd => rd.2
  | .error _ => db

/-- A field value, when present, passes its validator (returns without raising). -/
def fieldValid (f : Value → Except PyErr Bool) (o : Option Value) : Bool :=
  match o with
  | some v => exOk (f v)
  | none => true

/-- Every field present in `updates` passes its validator — the precondition
under which `update_user`'s validation phase returns. -/
def updatesValid (cfg : Config) (upd : Record) : Bool :=
  fieldValid validate_email_v (lookupKV upd "email") &&
  fieldValid validate_age_v (lookupKV upd "age") &&
  fieldValid (validate_mobile_v cfg) (lookupKV upd "mobile") &&
  fieldValid (validate_gender_v cfg) (lookupKV upd "gender") &&
  fieldValid (validate_blood_group_v cfg) (lookupKV upd "blood_group")

/-- All five field values given to `add_user` pass their validators. -/
def addFieldsValid (cfg : Config) (email : String) (age : Int)
    (mobile gender blood_group : String) : Bool :=
  exOk (validate_email email) && exOk (validate_age age) &&
  exOk (validate_mobile cfg mobile) && exOk (validate_gender cfg gender) &&
  exOk (validate_blood_group cfg blood_group)

/-- A stored field passes the validator applicable to its key; keys outside
the five validated fields (e.g. `role`) have no applicable validator. -/
def fieldOK (cfg : Config) (k : String) (v : Value) : Bool :=
  if k = "email" then exOk (validate_email_v v)
  else if k = "age" then exOk (validate_age_v v)
  else if k = "mobile" then exOk (validate_mobile_v cfg v)
  else if k = "gender" then exOk (validate_gender_v cfg v)
  else if k = "blood_group" then exOk (validate_blood_group_v cfg v)
  else true

/-- Every field of a stored record has passed its applicable validator. -/
def recordValidated (cfg : Config) (r : Record) : Bool :=
  r.all fun kv => fieldOK cfg kv.1 kv.2

/-- Every record in the directory is validated. -/
def dirValidated (cfg : Config) (db : Directory) : Bool :=
  db.all fun kv => recordValidated cfg kv.2

/-- Every username of `db` is still present in `db2` (no record removed). -/
def keysPreserved (db db2 : Directory) : Bool :=
  db.all fun kv => containsKey db2 kv.1

theorem lookupKV_eq_none_of_not_contains {α : Type} (l : List (String × α)) (k : String)
    (h : containsKey l k = false) : lookupKV l k = none := by
  induction l with
  | nil => rfl
  | cons kv rest ih =>
    simp only [containsKey, List.any_cons, Bool.or_eq_false_iff, decide_eq_false_iff_not] at h
    simpa [lookupKV, h.1] using ih (by simpa [containsKey] using h.2)

theorem lookupKV_mem {α : Type} (l : List (String × α)) (k : String) (v : α)
    (h : lookupKV l k = some v) : (k, v) ∈ l := by
  induction l with
  | nil => simp [lookupKV] at h
  | cons kv rest ih =>
    by_cases hk : kv.1 = k
    · simp only [lookupKV, hk, if_pos rfl] at h
      cases h
      exact List.mem_cons.mpr (Or.inl (by rw [← hk]))
    · simp only [lookupKV, if_neg hk] at h
      exact List.mem_cons.mpr (Or.inr (ih h))

theorem lookupKV_append {α : Type} (a b : List (String × α)) (k : String) :
    lookupKV (a ++ b) k =
      match lookupKV a k with
      | some v => some v
      | none => lookupKV b k := by
  induction a with
  | nil => rfl
  | cons kv rest ih =>
    by_cases hk : kv.1 = k
    · simp [lookupKV, hk]
    · simp [lookupKV, hk, ih]

theorem lookupKV_of_mem_nodup {α : Type} (l : List (String × α)) (k : String) (v : α)
    (hwf : (l.map Prod.fst).Nodup) (hm : (k, v) ∈ l) : lookupKV l k = some v := by
  induction l with
  | nil => cases hm
  | cons kv rest ih =>
    simp only [List.map_cons, List.nodup_cons] at hwf
    rcases List.mem_cons.mp hm with h | h
    · rw [← h]
      simp [lookupKV]
    · have hk : kv.1 ≠ k := by
        intro e
        exact hwf.1 (e ▸ List.mem_map.mpr ⟨(k, v), h, rfl⟩)
      simp [lookupKV, hk, ih hwf.2 h]

theorem lookupKV_mapUpdate (old upd : Record) (k : String) :
    lookupKV (old.map fun kv => (kv.1, (lookupKV upd kv.1).getD kv.2)) k
      = (lookupKV old k).map (fun v => (lookupKV upd k).getD v) := by
  induction old with
  | nil => rfl
  | cons kv rest ih =>
    by_cases hk : kv.1 = k
    · simp [lookupKV, hk]
    · simp [lookupKV, hk, ih]

theorem lookupKV_filterNew (old upd : Record) (k : String) (h : lookupKV old k = none) :
    lookupKV (upd.filter fun kv => (lookupKV old kv.1).isNone) k = lookupKV upd k := by
  induction upd with
  | nil => rfl
  | cons kv rest ih =>
    by_cases hk : kv.1 = k
    · simp [List.filter_cons, hk, h, lookupKV]
    · cases hp : (lookupKV old kv.1).isNone
      · simp [List.filter_cons, hp, lookupKV, hk, ih]
      · simp [List.filter_cons, hp, lookupKV, hk, ih]

/-- The Python `dict.update` merge, observed through lookup: a key present in
`upd` takes its `upd` value, any other key keeps its `old` value. -/
theorem lookupKV_dictUpdate (old upd : Record) (k : String) :
    lookupKV (dictUpdate old upd) k =
      match lookupKV upd k with
      | some v => some v
      | none => lookupKV old k := by
  unfold dictUpdate
  rw [lookupKV_append]
  cases ho : lookupKV old k with
  | none =>
    rw [lookupKV_mapUpdate, ho, lookupKV_filterNew old upd k ho]
    cases lookupKV upd k <;> rfl
  | some v =>
    rw [lookupKV_mapUpdate, ho]
    cases lookupKV upd k <;> rfl

theorem validateField_eq_ok (f : Value → Except PyErr Bool) (o : Option Value)
    (h : fieldValid f o = true) : validateField f o = .ok () := by
  cases o with
  | none => rfl
  | some v =>
    simp only [fieldValid] at h
    cases hf : f v with
    | ok b => simp [validateField, hf]
    | error e => rw [hf] at h; simp [exOk] at h

theorem fieldValid_of_validateField (f : Value → Except PyErr Bool) (o : Option Value)
    (u : Unit) (h : validateField f o = .ok u) : fieldValid f o = true := by
  cases o with
  | none => rfl
  | some v =>
    simp only [validateField] at h
    cases hf : f v with
    | ok b => simp [fieldValid, exOk, hf]
    | error e => rw [hf] at h; simp at h

theorem runUpdateValidations_of_valid (cfg : Config) (upd : Record)
    (h : updatesValid cfg upd = true) : runUpdateValidations cfg upd = .ok () := by
  unfold updatesValid at h
  simp only [Bool.and_eq_true] at h
  obtain ⟨⟨⟨⟨h1, h2⟩, h3⟩, h4⟩, h5⟩ := h
  unfold runUpdateValidations
  rw [validateField_eq_ok _ _ h1, validateField_eq_ok _ _ h2, validateField_eq_ok _ _ h3,
    validateField_eq_ok _ _ h4, validateField_eq_ok _ _ h5]

theorem updatesValid_of_run (cfg : Config) (upd : Record)
    (h : runUpdateValidations cfg upd = .ok ()) : updatesValid cfg upd = true := by
  unfold runUpdateValidations at h
  unfold updatesValid
  cases e1 : validateField validate_email_v (lookupKV upd "email") with
  | error e => rw [e1] at h; simp at h
  | ok u1 =>
  rw [e1] at h
  cases e2 : validateField validate_age_v (lookupKV upd "age") with
  | error e => rw [e2] at h; simp at h
  | ok u2 =>
  rw [e2] at h
  cases e3 : validateField (validate_mobile_v cfg) (lookupKV upd "mobile") with
  | error e => rw [e3] at h; simp at h
  | ok u3 =>
  rw [e3] at h
  cases e4 : validateField (validate_gender_v cfg) (lookupKV upd "gender") with
  | error e => rw [e4] at h; simp at h
  | ok u4 =>
  rw [e4] at h
  cases e5 : validateField (validate_blood_group_v cfg) (lookupKV upd "blood_group") with
  | error e => rw [e5] at h; simp at h
  | ok u5 =>
  simp [fieldValid_of_validateField _ _ _ e1, fieldValid_of_validateField _ _ _ e2,
    fieldValid_of_validateField _ _ _ e3, fieldValid_of_validateField _ _ _ e4,
    fieldValid_of_validateField _ _ _ e5]

theorem runAddValidations_of_valid (cfg : Config) (email : String) (age : Int)
    (mobile gender blood_group : String)
    (h : addFieldsValid cfg email age mobile gender blood_group = true) :
    runAddValidations cfg email age mobile gender blood_group = .ok () := by
  unfold addFieldsValid at h
  simp only [Bool.and_eq_true] at h
  obtain ⟨⟨⟨⟨h1, h2⟩, h3⟩, h4⟩, h5⟩ := h
  unfold runAddValidations
  cases e1 : validate_email email with
  | error e => rw [e1] at h1; simp [exOk] at h1
  | ok b1 =>
  cases e2 : validate_age age with
  | error e => rw [e2] at h2; simp [exOk] at h2
  | ok b2 =>
  cases e3 : validate_mobile cfg mobile with
  | error e => rw [e3] at h3; simp [exOk] at h3
  | ok b3 =>
  cases e4 : validate_gender cfg gender with
  | error e => rw [e4] at h4; simp [exOk] at h4
  | ok b4 =>
  cases e5 : validate_blood_group cfg blood_group with
  | error e => rw [e5] at h5; simp [exOk] at h5
  | ok b5 => rfl

theorem addFieldsValid_of_run (cfg : Config) (email : String) (age : Int)
    (mobile gender blood_group : String)
    (h : runAddValidations cfg email age mobile gender blood_group = .ok ()) :
    addFieldsValid cfg email age mobile gender blood_group = true := by
  unfold runAddValidations at h
  unfold addFieldsValid
  cases e1 : validate_email email with
  | error e => rw [e1] at h; simp at h
  | ok b1 =>
  rw [e1] at h
  cases e2 : validate_age age with
  | error e => rw [e2] at h; simp at h
  | ok b2 =>
  rw [e2] at h
  cases e3 : validate_mobile cfg mobile with
  | error e => rw [e3] at h; simp at h
  | ok b3 =>
  rw [e3] at h
  cases e4 : validate_gender cfg gender with
  | error e => rw [e4] at h; simp at h
  | ok b4 =>
  rw [e4] at h
  cases e5 : validate_blood_group cfg blood_group with
  | error e => rw [e5] at h; simp at h
  | ok b5 => simp [exOk, e1, e2, e3, e4, e5]

/-- `update_user` succeeds when the user exists (nonempty record), the
requester is the user or an admin, and every present field validates. -/
theorem update_user_ok (cfg : Config) (u : String) (upd : Record)
    (cu : String) (adm : Bool) (db : Directory) (r : Record)
    (h1 : lookupKV db u = some r) (h2 : r ≠ [])
    (hauth : cu = u ∨ adm = true)
    (hval : updatesValid cfg upd = true) :
    update_user cfg u upd cu adm db
      = .ok (dictUpdate r upd, dirSet db u (dictUpdate r upd)) := by
  have hrv : runUpdateValidations cfg upd = .ok () := runUpdateValidations_of_valid cfg upd hval
  have hne : r.isEmpty = false := by cases r with | nil => exact absurd rfl h2 | cons a l => rfl
  have hcond : (decide (cu ≠ u) && !adm) = false := by
    rcases hauth with h | h
    · simp [h]
    · simp [h]
  unfold update_user
  rw [h1]
  simp only [hne, Bool.false_eq_true, if_false, hcond, hrv]

theorem update_user_ok_inv (cfg : Config) (u : String) (upd : Record)
    (cu : String) (adm : Bool) (db : Directory) (rec : Record) (db2 : Directory)
    (h : update_user cfg u upd cu adm db = .ok (rec, db2)) :
    ∃ r, lookupKV db u = some r ∧ r.isEmpty = false ∧
      updatesValid cfg upd = true ∧
      rec = dictUpdate r upd ∧ db2 = dirSet db u (dictUpdate r upd) := by
  unfold update_user at h
  cases hl : lookupKV db u with
  | none => rw [hl] at h; simp at h
  | some r =>
    rw [hl] at h
    simp only at h
    refine ⟨r, rfl, ?_⟩
    cases he : r.isEmpty with
    | true => rw [he] at h; simp at h
    | false =>
      rw [he] at h
      simp only [Bool.false_eq_true, if_false] at h
      cases hc : (decide (cu ≠ u) && !adm) with
      | true => rw [hc] at h; simp at h
      | false =>
        rw [hc] at h
        simp only [Bool.false_eq_true, if_false] at h
        cases hr : runUpdateValidations cfg upd with
        | error e => rw [hr] at h; simp at h
        | ok uu =>
          rw [hr] at h
          simp only [Except.ok.injEq, Prod.mk.injEq] at h
          exact ⟨rfl, updatesValid_of_run cfg upd (by rw [hr]), h.1.symm, h.2.symm⟩

theorem add_user_ok_inv (cfg : Config) (username email : String) (age : Int)
    (mobile gender blood_group role current_user : String) (is_admin : Bool)
    (db db' : Directory)
    (h : add_user cfg username email age mobile gender blood_group role current_user is_admin db = .ok db') :
    is_admin = true ∧
    addFieldsValid cfg email age mobile gender blood_group = true ∧
    containsKey db username = false ∧
    db' = db ++ [(username, mkRecord email age mobile gender blood_group role)] := by
  unfold add_user at h
  cases is_admin with
  | false => simp at h
  | true =>
    simp only [if_true] at h
    cases hr : runAddValidations cfg email age mobile gender blood_group with
    | error e => rw [hr] at h; simp at h
    | ok uu =>
      rw [hr] at h
      simp only at h
      cases hc : containsKey db username with
      | true => rw [hc] at h; simp at h
      | false =>
        rw [hc] at h
        simp only [Bool.false_eq_true, if_false, Except.ok.injEq] at h
        exact ⟨rfl, addFieldsValid_of_run cfg email age mobile gender blood_group (by rw [hr]),
          rfl, h.symm⟩

theorem containsKey_of_mem {α : Type} (l : List (String × α)) (k : String) (v : α)
    (h : (k, v) ∈ l) : containsKey l k = true := by
  unfold containsKey
  rw [List.any_eq_true]
  exact ⟨(k, v), h, by simp⟩

theorem containsKey_dirSet (db : Directory) (u : String) (r : Record) (k : String) :
    containsKey (dirSet db u r) k = containsKey db k := by
  induction db with
  | nil => rfl
  | cons kv rest ih =>
    by_cases hk : kv.1 = u
    · simp [dirSet, containsKey, List.any_cons, hk] at ih ⊢
      rw [ih]
    · simp [dirSet, containsKey, List.any_cons, hk] at ih ⊢
      rw [ih]

theorem keysPreserved_refl (db : Directory) : keysPreserved db db = true := by
  unfold keysPreserved
  rw [List.all_eq_true]
  intro kv hkv
  exact containsKey_of_mem db kv.1 kv.2 hkv

theorem keysPreserved_append (db : Directory) (l : Directory) :
    keysPreserved db (db ++ l) = true := by
  unfold keysPreserved
  rw [List.all_eq_true]
  intro kv hkv
  have h := containsKey_of_mem db kv.1 kv.2 hkv
  unfold containsKey at h ⊢
  rw [List.any_append, h]
  rfl

theorem keysPreserved_dirSet (db : Directory) (u : String) (r : Record) :
    keysPreserved db (dirSet db u r) = true := by
  unfold keysPreserved
  rw [List.all_eq_true]
  intro kv hkv
  rw [containsKey_dirSet]
  exact containsKey_of_mem db kv.1 kv.2 hkv

theorem fieldOK_of_updatesValid (cfg : Config) (upd : Record) (k : String) (v : Value)
    (hval : updatesValid cfg upd = true) (hlk : lookupKV upd k = some v) :
    fieldOK cfg k v = true := by
  unfold updatesValid at hval
  simp only [Bool.and_eq_true] at hval
  obtain ⟨⟨⟨⟨h1, h2⟩, h3⟩, h4⟩, h5⟩ := hval
  unfold fieldOK
  by_cases e1 : k = "email"
  · rw [e1] at hlk; rw [hlk] at h1; simpa [e1, fieldValid] using h1
  by_cases e2 : k = "age"
  · rw [e2] at hlk; rw [hlk] at h2; simpa [e1, e2, fieldValid] using h2
  by_cases e3 : k = "mobile"
  · rw [e3] at hlk; rw [hlk] at h3; simpa [e1, e2, e3, fieldValid] using h3
  by_cases e4 : k = "gender"
  · rw [e4] at hlk; rw [hlk] at h4; simpa [e1, e2, e3, e4, fieldValid] using h4
  by_cases e5 : k = "blood_group"
  · rw [e5] at hlk; rw [hlk] at h5; simpa [e1, e2, e3, e4, e5, fieldValid] using h5
  simp [e1, e2, e3, e4, e5]

theorem recordValidated_of_lookup (cfg : Config) (db : Directory) (u : String) (r : Record)
    (hdb : dirValidated cfg db = true) (hlk : lookupKV db u = some r) :
    recordValidated cfg r = true := by
  unfold dirValidated at hdb
  rw [List.all_eq_true] at hdb
  exact hdb (u, r) (lookupKV_mem db u r hlk)

/-- The merged record of a successful `update_user` is still validated:
updated fields carry values the call just validated, untouched fields carry
their previously validated values. -/
theorem recordValidated_dictUpdate (cfg : Config) (old upd : Record)
    (hwf : (upd.map Prod.fst).Nodup)
    (hold : recordValidated cfg old = true)
    (hval : updatesValid cfg upd = true) :
    recordValidated cfg (dictUpdate old upd) = true := by
  unfold recordValidated at hold ⊢
  rw [List.all_eq_true] at hold ⊢
  intro kv hkv
  unfold dictUpdate at hkv
  rcases List.mem_append.mp hkv with hm | hm
  · obtain ⟨kv0, hkv0, hmap⟩ := List.mem_map.mp hm
    cases hu : lookupKV upd kv0.1 with
    | none =>
      rw [← hmap]
      simpa [hu] using hold kv0 hkv0
    | some w =>
      rw [← hmap]
      simpa [hu] using fieldOK_of_updatesValid cfg upd kv0.1 w hval hu
  · have hmem : kv ∈ upd := List.mem_of_mem_filter hm
    have hlk : lookupKV upd kv.1 = some kv.2 :=
      lookupKV_of_mem_nodup upd kv.1 kv.2 hwf hmem
    exact fieldOK_of_updatesValid cfg upd kv.1 kv.2 hval hlk

/-- The record `add_user` inserts is validated: the call just ran all five
validators, and `role` has no applicable validator. -/
theorem recordValidated_mkRecord (cfg : Config) (email : String) (age : Int)
    (mobile gender blood_group role : String)
    (h : addFieldsValid cfg email age mobile gender blood_group = true) :
    recordValidated cfg (mkRecord email age mobile gender blood_group role) = true := by
  unfold addFieldsValid at h
  simp only [Bool.and_eq_true] at h
  obtain ⟨⟨⟨⟨h1, h2⟩, h3⟩, h4⟩, h5⟩ := h
  unfold recordValidated mkRecord
  simp [fieldOK, validate_email_v, validate_age_v, validate_mobile_v,
    validate_gender_v, validate_blood_group_v, h1, h2, h3, h4, h5]

theorem dirValidated_append_one (cfg : Config) (db : Directory) (u : String) (r : Record)
    (hdb : dirValidated cfg db = true) (hr : recordValidated cfg r = true) :
    dirValidated cfg (db ++ [(u, r)]) = true := by
  unfold dirValidated at hdb ⊢
  rw [List.all_eq_true] at hdb ⊢
  intro kv hkv
  rcases List.mem_append.mp hkv with hm | hm
  · exact hdb kv hm
  · rcases List.mem_singleton.mp hm with rfl
    exact hr

theorem dirValidated_dirSet (cfg : Config) (db : Directory) (u : String) (r : Record)
    (hdb : dirValidated cfg db = true) (hr : recordValidated cfg r = true) :
    dirValidated cfg (dirSet db u r) = true := by
  unfold dirValidated at hdb ⊢
  rw [List.all_eq_true] at hdb ⊢
  intro kv hkv
  unfold dirSet at hkv
  obtain ⟨kv0, hkv0, hmap⟩ := List.mem_map.mp hkv
  by_cases hk : kv0.1 = u
  · rw [← hmap]
    simpa [hk] using hr
  · rw [← hmap]
    simpa [hk] using hdb kv0 hkv0

/-- A concrete configuration in the shape `constants.py` supplies: one
excluded number, the usual genders and blood groups. -/
def demoCfg : Config :=
  ⟨["9999999999"], ["male", "female", "other"],
   ["A+", "A-", "B+", "B-", "AB+", "AB-", "O+", "O-"]⟩

/-- The record of the sample user the demonstration driver adds. -/
def demoRec : Record := mkRecord "dummy@example.com" 30 "7776543210" "male" "A+" "user"

/-- A sample directory holding the single user `dummy`. -/
def demoDb : Directory := [("dummy", demoRec)]

/-- C1: for every username absent from the directory and every requester,
admin or not, `update_user` fails with `NotFound` (`ValueError("User not
found")`): the existence check is the first thing the function does, before
the authorization check, so a missing user yields `NotFound` even for an
unauthorized requester. -/
theorem update_user_absent_notFound (cfg : Config) (username : String) (updates : Record)
    (current_user : String) (is_admin : Bool) (db : Directory)
    (h : lookupKV db username = none) :
    update_user cfg username updates current_user is_admin db
      = .error (.valueError "User not found") := by
  unfold update_user
  rw [h]

theorem update_user_absent_notFound_witness :
    lookupKV demoDb "ghost" = none ∧
    update_user demoCfg "ghost" [("email", .vStr "g@x.com")] "kiran" true demoDb
      = .error (.valueError "User not found") ∧
    update_user demoCfg "ghost" [("email", .vStr "g@x.com")] "mallory" false demoDb
      = .error (.valueError "User not found") :=
  ⟨by decide,
   update_user_absent_notFound demoCfg "ghost" [("email", .vStr "g@x.com")] "kiran" true demoDb
     (by decide),
   update_user_absent_notFound demoCfg "ghost" [("email", .vStr "g@x.com")] "mallory" false demoDb
     (by decide)⟩

/-- C8: `validate_age` succeeds (returning `True`) exactly on integers in the
inclusive range `0..120`, and raises `ValueError("Invalid age")` otherwise. -/
theorem validate_age_spec (a : Int) :
    (0 ≤ a ∧ a ≤ 120 → validate_age a = .ok true) ∧
    (¬(0 ≤ a ∧ a ≤ 120) → validate_age a = .error (.valueError "Invalid age")) := by
  constructor
  · intro h
    simp [validate_age, h.1, h.2]
  · intro h
    have hb : (decide (0 ≤ a) && decide (a ≤ 120)) = false := by
      by_contra hc
      rw [Bool.not_eq_false, Bool.and_eq_true, decide_eq_true_iff, decide_eq_true_iff] at hc
      exact h hc
    simp [validate_age, hb]

theorem validate_age_spec_witness :
    validate_age 30 = .ok true ∧ validate_age 121 = .error (.valueError "Invalid age") :=
  ⟨(validate_age_spec 30).1 (by decide), (validate_age_spec 121).2 (by decide)⟩

/-- C9: `list_all_users` fails with `Unauthorized`
(`PermissionError("Unauthorized access")`) for every non-admin requester,
regardless of the directory contents, and returns the entire directory
mapping for every admin requester. -/
theorem list_all_users_spec (current_user : String) (is_admin : Bool) (db : Directory) :
    (is_admin = false →
      list_all_users current_user is_admin db = .error (.permissionError "Unauthorized access")) ∧
    (is_admin = true → list_all_users current_user is_admin db = .ok db) := by
  constructor
  · intro h
    simp [list_all_users, h]
  · intro h
    simp [list_all_users, h]

theorem list_all_users_spec_witness :
    list_all_users "radha2" false demoDb = .error (.permissionError "Unauthorized access") ∧
    list_all_users "nkiran" true demoDb = .ok demoDb :=
  ⟨(list_all_users_spec "radha2" false demoDb).1 rfl,
   (list_all_users_spec "nkiran" true demoDb).2 rfl⟩

/-- C5: for a username stored with a (nonempty) record, `get_user_info`
returns the stored record unchanged when the requester is that user or an
admin, and fails with `Unauthorized` when the requester is another non-admin
user; for an absent username it fails with `NotFound`.  (Every record this
system writes is nonempty — `add_user` stores six fields and `update_user`
never removes one — and the source reads `if user_info:`, whose truthiness
agrees with presence exactly on nonempty records.) -/
theorem get_user_info_spec (db : Directory) (username current_user : String)
    (is_admin : Bool) (r : Record) :
    (lookupKV db username = some r → r ≠ [] →
      ((username = current_user ∨ is_admin = true) →
        get_user_info username current_user is_admin db = .ok r) ∧
      (username ≠ current_user → is_admin = false →
        get_user_info username current_user is_admin db
          = .error (.permissionError "Unauthorized access"))) ∧
    (lookupKV db username = none →
      get_user_info username current_user is_admin db
        = .error (.valueError "User not found")) := by
  constructor
  · intro hlk hne
    have hemp : r.isEmpty = false := by
      cases r with
      | nil => exact absurd rfl hne
      | cons a l => rfl
    constructor
    · intro hauth
      have hc : (decide (username = current_user) || is_admin) = true := by
        rcases hauth with h | h <;> simp [h]
      unfold get_user_info
      rw [hlk]
      simp [hemp, hc]
    · intro hneq hadm
      have hc : (decide (username = current_user) || is_admin) = false := by
        simp [hneq, hadm]
      unfold get_user_info
      rw [hlk]
      simp [hemp, hc]
  · intro hlk
    unfold get_user_info
    rw [hlk]

theorem get_user_info_spec_witness :
    get_user_info "dummy" "dummy" false demoDb = .ok demoRec ∧
    get_user_info "dummy" "bob" false demoDb = .error (.permissionError "Unauthorized access") ∧
    get_user_info "ghost" "kiran" true demoDb = .error (.valueError "User not found") :=
  ⟨((get_user_info_spec demoDb "dummy" "dummy" false demoRec).1 (by decide) (by decide)).1
     (Or.inl rfl),
   ((get_user_info_spec demoDb "dummy" "bob" false demoRec).1 (by decide) (by decide)).2
     (by decide) rfl,
   (get_user_info_spec demoDb "ghost" "kiran" true demoRec).2 (by decide)⟩

/-- C2 counterexample: `"1234567890\n"` is not a string of exactly 10 decimal
digits (it has 11 characters, the last a newline), yet `validate_mobile` does
not raise: Python's `$` also matches just before a single trailing newline,
so `re.match(r'^\d{10}$', '1234567890\n')` succeeds and the function returns
`True` instead of raising `ValueError`. -/
theorem validate_mobile_trailing_newline :
    ¬("1234567890\n".data.length = 10 ∧ ∀ c ∈ "1234567890\n".data, c.isDigit = true) ∧
    validate_mobile demoCfg "1234567890\n" = .ok true := by
  constructor
  · decide
  · rfl

/-- C2 (amended): on a string of exactly 10 decimal digits `validate_mobile`
does not raise, returning `False` (excluded) iff the string is in the
configured exclusion set and `True` (valid) otherwise; a string that is
neither 10 decimal digits nor 10 decimal digits followed by one trailing
newline fails with `ValueError("Invalid mobile number")`.  (The trailing
newline escape comes from Python's `$`; the ASCII restriction in the second
part marks the domain on which the model's digit class coincides with
Python's Unicode-aware `\d`.) -/
theorem validate_mobile_spec (cfg : Config) (m : String) :
    (m.data.length = 10 → (∀ c ∈ m.data, c.isDigit = true) →
      validate_mobile cfg m =
        if cfg.EXCLUDED_NUMBERS.contains m then .ok false else .ok true) ∧
    ((∀ c ∈ m.data, c.toNat < 128) →
      ¬(m.data.length = 10 ∧ ∀ c ∈ m.data, c.isDigit = true) →
      ¬(m.data.length = 11 ∧ m.data.getLast? = some '\n' ∧
        ∀ c ∈ m.data.dropLast, c.isDigit = true) →
      validate_mobile cfg m = .error (.valueError "Invalid mobile number")) := by
  constructor
  · intro hlen hdig
    have hcore : mobileCore m.data = true := by
      simp only [mobileCore, Bool.and_eq_true, decide_eq_true_iff, List.all_eq_true]
      exact ⟨hlen, hdig⟩
    have hm : reFullMatch mobileCore m = true := by
      simp [reFullMatch, hcore]
    simp [validate_mobile, hm]
  · intro _ h1 h2
    have hm : reFullMatch mobileCore m = false := by
      by_contra hc
      rw [Bool.not_eq_false] at hc
      unfold reFullMatch at hc
      rw [Bool.or_eq_true] at hc
      rcases hc with hc | hc
      · exact h1 (by simpa [mobileCore, Bool.and_eq_true, List.all_eq_true] using hc)
      · rw [Bool.and_eq_true, decide_eq_true_iff] at hc
        obtain ⟨hg, hc2⟩ := hc
        simp only [mobileCore, Bool.and_eq_true, decide_eq_true_iff, List.all_eq_true] at hc2
        apply h2
        have hne : m.data ≠ [] := by
          intro e
          rw [e] at hg
          simp at hg
        have hdl := List.length_dropLast m.data
        have hpos : 0 < m.data.length := List.length_pos.mpr hne
        exact ⟨by omega, hg, hc2.2⟩
    simp [validate_mobile, hm]

theorem validate_mobile_spec_witness :
    validate_mobile demoCfg "7776543210" = .ok true ∧
    validate_mobile demoCfg "9999999999" = .ok false ∧
    validate_mobile demoCfg "12345" = .error (.valueError "Invalid mobile number") ∧
    validate_mobile demoCfg "12345abcde" = .error (.valueError "Invalid mobile number") := by
  refine ⟨?_, ?_, ?_, ?_⟩
  · rw [(validate_mobile_spec demoCfg "7776543210").1 (by decide) (by decide)]
    rfl
  · rw [(validate_mobile_spec demoCfg "9999999999").1 (by decide) (by decide)]
    rfl
  · exact (validate_mobile_spec demoCfg "12345").2 (by decide) (by decide) (by decide)
  · exact (validate_mobile_spec demoCfg "12345abcde").2 (by decide) (by decide) (by decide)

/-- C3: with an admin requester, field values that all validate, and a
username already present, a second `add_user` call fails with `AlreadyExists`
(`ValueError("User already exists")`) and the directory is unchanged after
the failed call. -/
theorem add_user_duplicate (cfg : Config) (username email : String) (age : Int)
    (mobile gender blood_group role current_user : String) (db : Directory)
    (hval : addFieldsValid cfg email age mobile gender blood_group = true)
    (hex : containsKey db username = true) :
    add_user cfg username email age mobile gender blood_group role current_user true db
      = .error (.valueError "User already exists") ∧
    add_user_state cfg username email age mobile gender blood_group role current_user true db
      = db := by
  have h : add_user cfg username email age mobile gender blood_group role current_user true db
      = .error (.valueError "User already exists") := by
    unfold add_user
    rw [runAddValidations_of_valid cfg email age mobile gender blood_group hval]
    simp [hex]
  refine ⟨h, ?_⟩
  unfold add_user_state
  rw [h]

theorem add_user_duplicate_witness :
    addFieldsValid demoCfg "dummy@example.com" 30 "7776543210" "male" "A+" = true ∧
    containsKey demoDb "dummy" = true ∧
    add_user demoCfg "dummy" "dummy@example.com" 30 "7776543210" "male" "A+" "user" "kiran" true demoDb
      = .error (.valueError "User already exists") ∧
    add_user_state demoCfg "dummy" "dummy@example.com" 30 "7776543210" "male" "A+" "user" "kiran" true demoDb
      = demoDb :=
  ⟨by decide, by decide,
   (add_user_duplicate demoCfg "dummy" "dummy@example.com" 30 "7776543210" "male" "A+" "user"
     "kiran" demoDb (by decide) (by decide)).1,
   (add_user_duplicate demoCfg "dummy" "dummy@example.com" 30 "7776543210" "male" "A+" "user"
     "kiran" demoDb (by decide) (by decide)).2⟩

/-- C6: after a successful `add_user` and a `get_user_info` for the new user
with matching authorization (self or admin) and no intervening update, the
stored record is returned and every field supplied at creation — email, age,
mobile, gender, blood_group, role — is returned unchanged. -/
theorem add_get_roundtrip (cfg : Config) (username email : String) (age : Int)
    (mobile gender blood_group role current_user : String) (is_admin : Bool)
    (db db' : Directory) (current_user2 : String) (is_admin2 : Bool)
    (h : add_user cfg username email age mobile gender blood_group role current_user is_admin db
      = .ok db')
    (hauth : username = current_user2 ∨ is_admin2 = true) :
    get_user_info username current_user2 is_admin2 db'
      = .ok (mkRecord email age mobile gender blood_group role) ∧
    lookupKV (mkRecord email age mobile gender blood_group role) "email" = some (.vStr email) ∧
    lookupKV (mkRecord email age mobile gender blood_group role) "age" = some (.vInt age) ∧
    lookupKV (mkRecord email age mobile gender blood_group role) "mobile" = some (.vStr mobile) ∧
    lookupKV (mkRecord email age mobile gender blood_group role) "gender" = some (.vStr gender) ∧
    lookupKV (mkRecord email age mobile gender blood_group role) "blood_group" = some (.vStr blood_group) ∧
    lookupKV (mkRecord email age mobile gender blood_group role) "role" = some (.vStr role) := by
  obtain ⟨-, -, hnc, hdb⟩ := add_user_ok_inv cfg username email age mobile gender blood_group role
    current_user is_admin db db' h
  have h0 : lookupKV db username = none := lookupKV_eq_none_of_not_contains db username hnc
  have hlk : lookupKV db' username = some (mkRecord email age mobile gender blood_group role) := by
    rw [hdb, lookupKV_append, h0]
    simp [lookupKV]
  have hc : (decide (username = current_user2) || is_admin2) = true := by
    rcases hauth with hh | hh <;> simp [hh]
  refine ⟨?_, rfl, by simp [mkRecord, lookupKV], by simp [mkRecord, lookupKV],
    by simp [mkRecord, lookupKV], by simp [mkRecord, lookupKV], by simp [mkRecord, lookupKV]⟩
  unfold get_user_info
  rw [hlk]
  simp [hc, mkRecord]

theorem add_get_roundtrip_witness :
    add_user demoCfg "newbie" "new@site.org" 25 "1231231234" "female" "O-" "user" "kiran" true demoDb
      = .ok (demoDb ++ [("newbie", mkRecord "new@site.org" 25 "1231231234" "female" "O-" "user")]) ∧
    get_user_info "newbie" "kiran" true
        (demoDb ++ [("newbie", mkRecord "new@site.org" 25 "1231231234" "female" "O-" "user")])
      = .ok (mkRecord "new@site.org" 25 "1231231234" "female" "O-" "user") :=
  ⟨rfl,
   (add_get_roundtrip demoCfg "newbie" "new@site.org" 25 "1231231234" "female" "O-" "user"
     "kiran" true demoDb
     (demoDb ++ [("newbie", mkRecord "new@site.org" 25 "1231231234" "female" "O-" "user")])
     "kiran" true rfl (Or.inr rfl)).1⟩

/-- C7: for an existing user (nonempty record), an authorized requester, and
an updates mapping whose present fields all validate, `update_user` succeeds,
merging exactly the provided fields into the existing record — a key present
in `updates` takes its updated value, and every field not mentioned in
`updates` keeps its old value — and returns the updated record (paired with
the post-state, in which only this user's entry changed). -/
theorem update_user_merge (cfg : Config) (username : String) (updates : Record)
    (current_user : String) (is_admin : Bool) (db : Directory) (r : Record) (k : String)
    (h1 : lookupKV db username = some r) (h2 : r ≠ [])
    (hauth : current_user = username ∨ is_admin = true)
    (hval : updatesValid cfg updates = true) :
    update_user cfg username updates current_user is_admin db
      = .ok (dictUpdate r updates, dirSet db username (dictUpdate r updates)) ∧
    lookupKV (dictUpdate r updates) k =
      (match lookupKV updates k with
       | some v => some v
       | none => lookupKV r k) :=
  ⟨update_user_ok cfg username updates current_user is_admin db r h1 h2 hauth hval,
   lookupKV_dictUpdate r updates k⟩

theorem update_user_merge_witness :
    update_user demoCfg "dummy" [("email", .vStr "new_dummy@example.com")] "kiran" true demoDb
      = .ok (dictUpdate demoRec [("email", .vStr "new_dummy@example.com")],
             dirSet demoDb "dummy" (dictUpdate demoRec [("email", .vStr "new_dummy@example.com")])) ∧
    lookupKV (dictUpdate demoRec [("email", .vStr "new_dummy@example.com")]) "email"
      = some (.vStr "new_dummy@example.com") ∧
    lookupKV (dictUpdate demoRec [("email", .vStr "new_dummy@example.com")]) "age"
      = some (.vInt 30) := by
  have h1 := update_user_merge demoCfg "dummy" [("email", .vStr "new_dummy@example.com")] "kiran"
    true demoDb demoRec "email" (by decide) (by decide) (Or.inr rfl) (by decide)
  have h2 := update_user_merge demoCfg "dummy" [("email", .vStr "new_dummy@example.com")] "kiran"
    true demoDb demoRec "age" (by decide) (by decide) (Or.inr rfl) (by decide)
  refine ⟨h1.1, ?_, ?_⟩
  · rw [h1.2]
    rfl
  · rw [h2.2]
    rfl

/-- C10 (implicit behaviour): `update_user` merges every key present in
`updates` into the stored record, including keys outside the five validated
fields — an arbitrary key `k` bound to an arbitrary value `v` is stored with
no validation run on it: `updatesValid` constrains only the five validated
fields, so `v` is unconstrained and still reaches the store. -/
theorem update_user_extra_keys (cfg : Config) (username : String) (updates : Record)
    (current_user : String) (is_admin : Bool) (db : Directory) (r : Record)
    (k : String) (v : Value)
    (h1 : lookupKV db username = some r) (h2 : r ≠ [])
    (hauth : current_user = username ∨ is_admin = true)
    (hval : updatesValid cfg updates = true)
    (hk : k ≠ "email" ∧ k ≠ "age" ∧ k ≠ "mobile" ∧ k ≠ "gender" ∧ k ≠ "blood_group")
    (hkv : lookupKV updates k = some v) :
    update_user cfg username updates current_user is_admin db
      = .ok (dictUpdate r updates, dirSet db username (dictUpdate r updates)) ∧
    lookupKV (dictUpdate r updates) k = some v :=
  ⟨update_user_ok cfg username updates current_user is_admin db r h1 h2 hauth hval,
   by rw [lookupKV_dictUpdate, hkv]⟩

theorem update_user_extra_keys_witness :
    update_user demoCfg "dummy" [("role", .vStr "admin"), ("nickname", .vInt 7)] "dummy" false demoDb
      = .ok (dictUpdate demoRec [("role", .vStr "admin"), ("nickname", .vInt 7)],
             dirSet demoDb "dummy"
               (dictUpdate demoRec [("role", .vStr "admin"), ("nickname", .vInt 7)])) ∧
    lookupKV (dictUpdate demoRec [("role", .vStr "admin"), ("nickname", .vInt 7)]) "nickname"
      = some (.vInt 7) :=
  update_user_extra_keys demoCfg "dummy" [("role", .vStr "admin"), ("nickname", .vInt 7)]
    "dummy" false demoDb demoRec "nickname" (.vInt 7) (by decide) (by decide) (Or.inl rfl)
    (by decide) (by decide) (by decide)

/-- C4: the directory invariant is preserved by every operation.  The two
mutators keep every stored record validated — each field that has an
applicable validator passed it at the time it was written (`role` and other
extra keys have no applicable validator) — and never remove a record;
`get_user_info` and `list_all_users` perform no write to the store in the
source, so they preserve the invariant trivially. -/
theorem directory_invariant (cfg : Config) (username email : String) (age : Int)
    (mobile gender blood_group role current_user : String) (is_admin : Bool)
    (username2 : String) (updates : Record) (current_user2 : String) (is_admin2 : Bool)
    (db : Directory)
    (hwf : (updates.map Prod.fst).Nodup)
    (hval : dirValidated cfg db = true) :
    (dirValidated cfg (add_user_state cfg username email age mobile gender blood_group role
        current_user is_admin db) = true ∧
     keysPreserved db (add_user_state cfg username email age mobile gender blood_group role
        current_user is_admin db) = true) ∧
    (dirValidated cfg (update_user_state cfg username2 updates current_user2 is_admin2 db) = true ∧
     keysPreserved db (update_user_state cfg username2 updates current_user2 is_admin2 db) = true) := by
  constructor
  · unfold add_user_state
    cases ha : add_user cfg username email age mobile gender blood_group role current_user is_admin db with
    | error e => exact ⟨hval, keysPreserved_refl db⟩
    | ok db2 =>
      obtain ⟨-, hv, -, hdb⟩ := add_user_ok_inv cfg username email age mobile gender blood_group
        role current_user is_admin db db2 ha
      rw [hdb]
      exact ⟨dirValidated_append_one cfg db username _ hval
        (recordValidated_mkRecord cfg email age mobile gender blood_group role hv),
        keysPreserved_append db _⟩
  · unfold update_user_state
    cases hu : update_user cfg username2 updates current_user2 is_admin2 db with
    | error e => exact ⟨hval, keysPreserved_refl db⟩
    | ok rd =>
      obtain ⟨r, hlk, -, huv, -, hdb2⟩ := update_user_ok_inv cfg username2 updates current_user2
        is_admin2 db rd.1 rd.2 (by rw [hu])
      show dirValidated cfg rd.2 = true ∧ keysPreserved db rd.2 = true
      rw [hdb2]
      have hr := recordValidated_of_lookup cfg db username2 r hval hlk
      exact ⟨dirValidated_dirSet cfg db username2 _ hval
        (recordValidated_dictUpdate cfg r updates hwf hr huv),
        keysPreserved_dirSet db username2 _⟩

theorem directory_invariant_witness :
    ((updatesValid demoCfg [("email", .vStr "new_dummy@example.com")] = true ∧
      dirValidated demoCfg demoDb = true) ∧
     dirValidated demoCfg (add_user_state demoCfg "newbie" "new@site.org" 25 "1231231234"
       "female" "O-" "user" "kiran" true demoDb) = true ∧
     keysPreserved demoDb (add_user_state demoCfg "newbie" "new@site.org" 25 "1231231234"
       "female" "O-" "user" "kiran" true demoDb) = true) ∧
    (dirValidated demoCfg (update_user_state demoCfg "dummy"
       [("email", .vStr "new_dummy@example.com")] "kiran" true demoDb) = true ∧
     keysPreserved demoDb (update_user_state demoCfg "dummy"
       [("email", .vStr "new_dummy@example.com")] "kiran" true demoDb) = true) := by
  have h := directory_invariant demoCfg "newbie" "new@site.org" 25 "1231231234" "female" "O-"
    "user" "kiran" true "dummy" [("email", .vStr "new_dummy@example.com")] "kiran" true demoDb
    (by decide) (by decide)
  exact ⟨⟨⟨by decide, by decide⟩, h.1⟩, h.2⟩
